import Mathlib

/-!
# Verification of the httpsig verification engine (verify.go)

Shallow embedding of the HTTP message-signature verification engine:
the orchestrator `Verify`, its helper loops (signature selection,
signature extraction, canonicalization), the HMAC-SHA256 algorithm
verifier, and the error taxonomy.  Bytes are `Nat` values below 256,
`time.Time` values are `Int` timestamps, and Go's multiple-return
`(value, err)` idiom becomes `Option`/`Except`.
-/

set_option autoImplicit false

namespace Httpsig

/-- The sentinel error values of verify.go (lines 151-158).  The
`other` constructor carries the message of an error produced by a
canonicalization routine and returned verbatim by `Verify` (lines
120-130); such errors are distinct from every sentinel. -/
inductive SigError where
  | notSigned
  | malformedSignature
  | unknownKey
  | algMismatch
  | signatureExpired
  | invalidSignature
  | other (msg : String)
  deriving DecidableEq, Repr

/-- Modelled from the spec: `SignatureParams` (§3) — one parsed
signature-metadata entry with `keyID`, optional `alg`, the ordered
covered-component list, and an optional expiry timestamp.  The Go
struct `signatureParams` is defined outside the embedded file. -/
structure signatureParams where
  keyID : String
  alg : String
  items : List String
  expires : Option Int
  deriving DecidableEq, Repr

/-- One registry row (verify.go `verHolder`, lines 23-26): the expected
algorithm label and the verification strategy.  A fresh `verImpl` is
created per call and used linearly (write all bytes, then verify), so
its streaming state is modelled functionally: `check absorbed sig` is
the result of `verify sig` after `absorbed` was written to `w`
(`none` = nil error, `some e` = the returned error). -/
structure verHolder where
  alg : String
  check : List Nat → List Nat → Option SigError

/-- verify.go `verifier` (lines 28-33): the key registry plus the
`nowFunc` field declared "For testing".  The Go field has type
`func() time.Time`; it is modelled by the timestamp it would return. -/
structure verifier where
  keys : List (String × verHolder)
  nowFunc : Int

/-- Modelled from the spec: `SignableMessage` (§3) — method, URL and a
header collection with case-insensitive lookup.  The Go `message`
struct is defined outside the embedded file; `Verify` reads only
`msg.Header`, `msg.Method` and `msg.URL`. -/
structure message where
  Method : String
  URL : String
  Header : List (String × List String)

/-- ASCII lower-casing of one character. -/
def lowerChar (c : Char) : Char :=
  if 'A' ≤ c ∧ c ≤ 'Z' then Char.ofNat (c.toNat + 32) else c

/-- Case-insensitive (ASCII) string comparison, modelling the
canonical-key lookup of Go's `http.Header`. -/
def eqCaseInsensitive (a b : String) : Bool :=
  a.toList.map lowerChar == b.toList.map lowerChar

/-- Go `http.Header.Get`: first value for the (case-insensitively)
matching key, or `""` when the key is absent or has no values. -/
def headerGet (hs : List (String × List String)) (key : String) : String :=
  match hs.find? (fun p => eqCaseInsensitive p.fst key) with
  | some p =>
    match p.snd with
    | v :: _ => v
    | [] => ""
  | none => ""

/-- Modelled from the spec: the parser and canonicalizer contracts
(§4.1, §4.2) of this repository, whose implementations are not part of
the embedded file.  `Verify` is parameterized over them:
`parseSignatureInput` parses one parameter blob (Go returns
`(*signatureParams, error)`; any error makes `Verify` fail with
`malformedSignature`, so only success/failure matters);
`canonicalizeRequestTarget` takes the method and URL;
`canonicalizeHeader` takes a header name and the header collection;
`canonicalizeSignatureParams` appends the trailing parameters line. -/
structure Env where
  parseSignatureInput : String → Option signatureParams
  canonicalizeRequestTarget : String → String → Except String (List Nat)
  canonicalizeHeader : String → List (String × List String) → Except String (List Nat)
  canonicalizeSignatureParams : signatureParams → List Nat

/-- Split a character list at every occurrence of the two-character
separator `", "`, scanning left to right; `cur` holds the characters
of the current entry in reverse. -/
def splitCommaSpaceAux (cur : List Char) : List Char → List (List Char)
  | [] => [cur.reverse]
  | [c] => [(c :: cur).reverse]
  | c1 :: c2 :: rest =>
    if c1 = ',' ∧ c2 = ' ' then cur.reverse :: splitCommaSpaceAux [] rest
    else splitCommaSpaceAux (c1 :: cur) (c2 :: rest)

/-- Go `strings.Split(s, ", ")` as used on both header values
(verify.go lines 47-48): split on every occurrence of the exact
two-character separator. -/
def splitParts (s : String) : List String :=
  (splitCommaSpaceAux [] s.toList).map List.asString

/-- The characters before and after the first `'='`, or `none` when
the character does not occur. -/
def breakEq : List Char → Option (List Char × List Char)
  | [] => none
  | c :: rest =>
    if c = '=' then some ([], rest)
    else
      match breakEq rest with
      | some (a, b) => some (c :: a, b)
      | none => none

/-- Go `strings.SplitN(s, "=", 2)` (verify.go lines 59, 82): at most
two parts, the second keeping any further `=` characters. -/
def splitN2 (s : String) : List String :=
  match breakEq s.toList with
  | none => [s]
  | some (a, b) => [a.asString, b.asString]

/-- Go `strings.Trim(s, ":")` (verify.go line 89): remove all leading
and trailing colon characters. -/
def trimColons (s : String) : String :=
  (((s.toList.dropWhile (· == ':')).reverse.dropWhile (· == ':')).reverse).asString

/-- The signature-selection loop of verify.go lines 56-78: walk the
`Signature-Input` entries in order; an entry without `=` or whose blob
fails to parse stops the call with `malformedSignature`; the first
entry whose `keyid` is registered is selected (the loop breaks); if
the loop ends with no selection the caller reports `unknownKey`
(lines 76-78). -/
def selectSig (parse : String → Option signatureParams)
    (keys : List (String × verHolder)) :
    List String → Except SigError (String × signatureParams)
  | [] => .error .unknownKey
  | p :: rest =>
    let pParts := splitN2 p
    if pParts.length ≠ 2 then .error .malformedSignature
    else
      match parse (pParts.getD 1 "") with
      | none => .error .malformedSignature
      | some candidate =>
        if (keys.lookup candidate.keyID).isSome then .ok (pParts.getD 0 "", candidate)
        else selectSig parse keys rest

/-- The signature-extraction loop of verify.go lines 80-96: walk the
`Signature` entries; an entry without `=` stops with
`malformedSignature`; at the first entry whose id matches, the value
is colon-trimmed and the loop breaks; a final empty value (no match,
or the matched value trimmed to nothing) is `malformedSignature`. -/
def findSignatureVal (sigID : String) : List String → Except SigError String
  | [] => .error .malformedSignature
  | s :: rest =>
    let sParts := splitN2 s
    if sParts.length ≠ 2 then .error .malformedSignature
    else if sParts.getD 0 "" = sigID then
      if trimColons (sParts.getD 1 "") = "" then .error .malformedSignature
      else .ok (trimColons (sParts.getD 1 ""))
    else findSignatureVal sigID rest

/-- The canonicalization loop of verify.go lines 117-131: one line per
covered item, `@request-target` dispatching to the request-target
routine, everything else to the header routine; the first error is
returned as-is. -/
def canonicalizeItems (env : Env) (msg : message) : List String → Except String (List Nat)
  | [] => .ok []
  | item :: rest =>
    match (if item = "@request-target" then env.canonicalizeRequestTarget msg.Method msg.URL
           else env.canonicalizeHeader item msg.Header) with
    | .error e => .error e
    | .ok line =>
      match canonicalizeItems env msg rest with
      | .error e => .error e
      | .ok restBytes => .ok (line ++ restBytes)

/-- The value of one base64 alphabet character of Go's
`base64.StdEncoding`, or `none` for a character outside the
alphabet. -/
def b64Val (c : Char) : Option Nat :=
  if 'A' ≤ c ∧ c ≤ 'Z' then some (c.toNat - 65)
  else if 'a' ≤ c ∧ c ≤ 'z' then some (c.toNat - 97 + 26)
  else if '0' ≤ c ∧ c ≤ '9' then some (c.toNat - 48 + 52)
  else if c = '+' then some 62
  else if c = '/' then some 63
  else none

/-- Go `base64.StdEncoding.DecodeString` on the character list:
four-character quanta, the last quantum optionally padded with one or
two `=` characters; a padded quantum must end the input; anything
else is a decode error (`none`). -/
def base64DecodeChars : List Char → Option (List Nat)
  | [] => some []
  | c1 :: c2 :: c3 :: c4 :: rest =>
    match b64Val c1, b64Val c2 with
    | some v1, some v2 =>
      if c3 = '=' then
        if c4 = '=' ∧ rest = [] then some [(v1 * 4 + v2 / 16) % 256] else none
      else
        match b64Val c3 with
        | some v3 =>
          if c4 = '=' then
            if rest = [] then
              some [(v1 * 4 + v2 / 16) % 256, (v2 % 16 * 16 + v3 / 4) % 256]
            else none
          else
            match b64Val c4 with
            | some v4 =>
              match base64DecodeChars rest with
              | some rb =>
                some ([(v1 * 4 + v2 / 16) % 256, (v2 % 16 * 16 + v3 / 4) % 256,
                       (v3 % 4 * 64 + v4) % 256] ++ rb)
              | none => none
            | none => none
        | none => none
    | _, _ => none
  | _ => none

/-- Go `base64.StdEncoding.DecodeString` (verify.go line 104). -/
def base64Decode (s : String) : Option (List Nat) :=
  base64DecodeChars s.toList

/-- verify.go lines 80-146: the tail of `Verify` once a signature id
and parameters have been selected.  The registry is re-indexed with
`params.keyID` (line 98; selection guarantees the key is present, the
impossible branch is mapped to `unknownKey`); the algorithm check
(line 99) precedes base64 decoding (line 104); the instance absorbs
the canonical item bytes followed by the signature-parameters line
(lines 133-134); a failing `verify` is mapped to `invalidSignature`
(line 138); finally the expiry check (line 142) fails exactly when
`expires` is set and is after `time.Now()` — `wallClock` is the value
`time.Now()` returns at the check. -/
def verifySelected (v : verifier) (env : Env) (msg : message) (wallClock : Int)
    (sigParts : List String) (sigID : String) (params : signatureParams) : Option SigError :=
  match findSignatureVal sigID sigParts with
  | .error e => some e
  | .ok signature =>
    match v.keys.lookup params.keyID with
    | none => some SigError.unknownKey
    | some ver =>
      if ver.alg ≠ "" ∧ params.alg ≠ "" ∧ ver.alg ≠ params.alg then some SigError.algMismatch
      else
        match base64Decode signature with
        | none => some SigError.malformedSignature
        | some sig =>
          match canonicalizeItems env msg params.items with
          | .error e => some (SigError.other e)
          | .ok b =>
            match ver.check (b ++ env.canonicalizeSignatureParams params) sig with
            | some _ => some SigError.invalidSignature
            | none =>
              match params.expires with
              | some exp => if exp > wallClock then some SigError.signatureExpired else none
              | none => none

/-- verify.go lines 36-147, `(*verifier).Verify`: extract the two
headers (`""` = absent, lines 37-45), split both on `", "`, compare
list lengths (line 50), run the selection loop, and hand the selected
entry to `verifySelected`.  `wallClock` is the value `time.Now()`
returns at the expiry check; the `nowFunc` field of `v` is never read
by the source function. -/
def Verify (v : verifier) (env : Env) (msg : message) (wallClock : Int) : Option SigError :=
  let sigHdr := headerGet msg.Header "Signature"
  if sigHdr = "" then some SigError.notSigned
  else
    let paramHdr := headerGet msg.Header "Signature-Input"
    if paramHdr = "" then some SigError.notSigned
    else
      let sigParts := splitParts sigHdr
      let paramParts := splitParts paramHdr
      if sigParts.length ≠ paramParts.length then some SigError.malformedSignature
      else
        match selectSig env.parseSignatureInput v.keys paramParts with
        | .error e => some e
        | .ok (sigID, params) => verifySelected v env msg wallClock sigParts sigID params

/-! ## SHA-256, HMAC and the HMAC-SHA256 registry row

A byte-level implementation of SHA-256 and of the HMAC construction
over it, modelling Go's `crypto/sha256` and `crypto/hmac` as used by
`verifyHmacSha256` (verify.go lines 207-225).  32-bit words are `Nat`
values reduced modulo `2 ^ 32`. -/

/-- `2 ^ 32`, the word modulus. -/
def w32 : Nat := 4294967296

/-- 32-bit modular addition. -/
def add32 (a b : Nat) : Nat := (a + b) % w32

/-- 32-bit right rotation by `n`. -/
def rotr32 (n x : Nat) : Nat := ((x >>> n) ||| (x <<< (32 - n))) % w32

/-- SHA-256 `Σ0`. -/
def bSig0 (x : Nat) : Nat := (rotr32 2 x) ^^^ (rotr32 13 x) ^^^ (rotr32 22 x)

/-- SHA-256 `Σ1`. -/
def bSig1 (x : Nat) : Nat := (rotr32 6 x) ^^^ (rotr32 11 x) ^^^ (rotr32 25 x)

/-- SHA-256 `σ0`. -/
def sSig0 (x : Nat) : Nat := (rotr32 7 x) ^^^ (rotr32 18 x) ^^^ (x >>> 3)

/-- SHA-256 `σ1`. -/
def sSig1 (x : Nat) : Nat := (rotr32 17 x) ^^^ (rotr32 19 x) ^^^ (x >>> 10)

/-- SHA-256 `Ch`: `(x ∧ y) ⊕ (¬x ∧ z)` on 32-bit words. -/
def chFun (x y z : Nat) : Nat := (x &&& y) ^^^ ((x ^^^ 4294967295) &&& z)

/-- SHA-256 `Maj`. -/
def majFun (x y z : Nat) : Nat := (x &&& y) ^^^ (x &&& z) ^^^ (y &&& z)

/-- The 64 SHA-256 round constants (decimal). -/
def sha256K : List Nat :=
  [1116352408, 1899447441, 3049323471, 3921009573, 961987163, 1508970993,
   2453635748, 2870763221, 3624381080, 310598401, 607225278, 1426881987,
   1925078388, 2162078206, 2614888103, 3248222580, 3835390401, 4022224774,
   264347078, 604807628, 770255983, 1249150122, 1555081692, 1996064986,
   2554220882, 2821834349, 2952996808, 3210313671, 3336571891, 3584528711,
   113926993, 338241895, 666307205, 773529912, 1294757372, 1396182291,
   1695183700, 1986661051, 2177026350, 2456956037, 2730485921, 2820302411,
   3259730800, 3345764771, 3516065817, 3600352804, 4094571909, 275423344,
   430227734, 506948616, 659060556, 883997877, 958139571, 1322822218,
   1537002063, 1747873779, 1955562222, 2024104815, 2227730452, 2361852424,
   2428436474, 2756734187, 3204031479, 3329325298]

/-- The SHA-256 initial hash state (decimal). -/
def sha256H0 : List Nat :=
  [1779033703, 3144134277, 1013904242, 2773480762,
   1359893119, 2600822924, 528734635, 1541459225]

/-- Big-endian packing of bytes into 32-bit words (four at a time). -/
def bytesToWords : List Nat → List Nat
  | b0 :: b1 :: b2 :: b3 :: rest =>
    (((b0 * 256 + b1) * 256 + b2) * 256 + b3) :: bytesToWords rest
  | _ => []

/-- Big-endian unpacking of one 32-bit word into four bytes. -/
def wordToBytes (w : Nat) : List Nat :=
  [w / 16777216 % 256, w / 65536 % 256, w / 256 % 256, w % 256]

/-- The 8-byte big-endian encoding of the message bit length. -/
def len64be (n : Nat) : List Nat :=
  [n / 72057594037927936 % 256, n / 281474976710656 % 256, n / 1099511627776 % 256,
   n / 4294967296 % 256, n / 16777216 % 256, n / 65536 % 256, n / 256 % 256, n % 256]

/-- SHA-256 padding: `0x80`, zeros to 56 mod 64, then the bit length. -/
def sha256Pad (msg : List Nat) : List Nat :=
  let padZeros := (120 - (msg.length + 1) % 64) % 64
  msg ++ [128] ++ List.replicate padZeros 0 ++ len64be (msg.length * 8)

/-- Extend a 16-word block to the 64-word message schedule. -/
def sha256Extend (block : List Nat) : List Nat :=
  (List.range 48).foldl
    (fun w i =>
      w ++ [add32 (add32 (sSig1 (w.getD (i + 14) 0)) (w.getD (i + 9) 0))
              (add32 (sSig0 (w.getD (i + 1) 0)) (w.getD i 0))])
    block

/-- One SHA-256 compression step on one 16-word block. -/
def sha256Compress (hs : List Nat) (block : List Nat) : List Nat :=
  let w := sha256Extend block
  let st0 := (hs.getD 0 0, hs.getD 1 0, hs.getD 2 0, hs.getD 3 0,
              hs.getD 4 0, hs.getD 5 0, hs.getD 6 0, hs.getD 7 0)
  let stN := (List.range 64).foldl
    (fun st i =>
      let (a, b, c, d, e, f, g, h) := st
      let t1 := add32 h (add32 (bSig1 e) (add32 (chFun e f g)
                  (add32 (sha256K.getD i 0) (w.getD i 0))))
      let t2 := add32 (bSig0 a) (majFun a b c)
      (add32 t1 t2, a, b, c, add32 d t1, e, f, g))
    st0
  match st0, stN with
  | (a0, b0, c0, d0, e0, f0, g0, h0), (a, b, c, d, e, f, g, h) =>
    [add32 a0 a, add32 b0 b, add32 c0 c, add32 d0 d,
     add32 e0 e, add32 f0 f, add32 g0 g, add32 h0 h]

/-- SHA-256 of a byte list. -/
def sha256 (msg : List Nat) : List Nat :=
  let ws := bytesToWords (sha256Pad msg)
  let hs := (List.range (ws.length / 16)).foldl
    (fun h i => sha256Compress h ((ws.drop (16 * i)).take 16)) sha256H0
  (hs.map wordToBytes).flatten

/-- HMAC-SHA256 (Go `hmac.New(sha256.New, key)` followed by writes of
`msg` and `Sum`): keys longer than the 64-byte block are hashed, the
key is zero-padded to the block size, and the nested construction
`H((k ⊕ opad) ∥ H((k ⊕ ipad) ∥ msg))` is applied. -/
def hmacSha256 (key msg : List Nat) : List Nat :=
  let k0 := if key.length > 64 then sha256 key else key
  let kp := k0 ++ List.replicate (64 - k0.length) 0
  sha256 ((kp.map (fun b => b ^^^ 92)) ++ sha256 ((kp.map (fun b => b ^^^ 54)) ++ msg))

/-- Go `crypto/subtle.ConstantTimeCompare`: false for different
lengths, otherwise the OR of all byte XORs must be zero. -/
def constantTimeCompare (x y : List Nat) : Bool :=
  if x.length = y.length then
    ((List.zipWith (fun a b => a ^^^ b) x y).foldl (fun acc v => acc ||| v) 0) == 0
  else false

/-- Go `hmac.Equal(mac1, mac2)`: constant-time equality of the two
MACs. -/
def hmacEqual (mac1 mac2 : List Nat) : Bool :=
  constantTimeCompare mac1 mac2

/-- verify.go lines 207-225, `verifyHmacSha256`: the registry row for
a shared secret.  A fresh instance keys an HMAC-SHA256 accumulator
with the secret; the bytes written to `w` are the absorbed bytes, and
`verify(in)` compares `in` against the accumulator's `Sum` with
`hmac.Equal`, returning `invalidSignatureError` on mismatch.  (The
source leaves the `alg` label set, line 210.) -/
def verifyHmacSha256 (secret : List Nat) : verHolder :=
  { alg := "hmac-sha256",
    check := fun absorbed signature =>
      if hmacEqual signature (hmacSha256 secret absorbed) then none
      else some SigError.invalidSignature }

/-! ## Concrete registry, environment and messages

Closed instantiations of the caller-supplied data (`Env` regroups the
repository's parser/canonicalizer, `verifier` the key registry) used
to run `Verify` on explicit inputs. -/

/-- A registry row with no expected-algorithm label whose instance
accepts every signature. -/
def hAccept : verHolder := { alg := "", check := fun _ _ => none }

/-- A registry row labelled `hmac-sha256` whose instance accepts every
signature. -/
def hHmacLabel : verHolder := { alg := "hmac-sha256", check := fun _ _ => none }

/-- A registry row with no label whose instance rejects every
signature (the cryptographic check always fails). -/
def hReject : verHolder := { alg := "", check := fun _ _ => some SigError.invalidSignature }

/-- Parameters for key `k1`, no declared algorithm, expiring at
timestamp 100. -/
def pGood : signatureParams := { keyID := "k1", alg := "", items := [], expires := some 100 }

/-- Parameters for key `k1` with no expiry. -/
def pNoExp : signatureParams := { keyID := "k1", alg := "", items := [], expires := none }

/-- Parameters for key `k2` declaring algorithm `rsa-pss-sha512`. -/
def pAlg : signatureParams := { keyID := "k2", alg := "rsa-pss-sha512", items := [], expires := none }

/-- Parameters for key `k3` (rejecting row), expiring at 300. -/
def pK3 : signatureParams := { keyID := "k3", alg := "", items := [], expires := some 300 }

/-- Parameters naming a key id absent from the registry. -/
def pUnk : signatureParams := { keyID := "nokey", alg := "", items := [], expires := none }

/-- A concrete registry: `k1` accepting with no label, `k2` accepting
with label `hmac-sha256`, `k3` rejecting; `nowFunc` fixed at 0. -/
def vC : verifier := { keys := [("k1", hAccept), ("k2", hHmacLabel), ("k3", hReject)], nowFunc := 0 }

/-- A concrete environment: the parameter blobs `pgood`, `pnoexp`,
`palg`, `pk3`, `punk` parse to the corresponding fixtures and every
other blob fails to parse; canonicalization always succeeds with no
bytes. -/
def envC : Env :=
  { parseSignatureInput := fun s =>
      if s = "pgood" then some pGood
      else if s = "pnoexp" then some pNoExp
      else if s = "palg" then some pAlg
      else if s = "pk3" then some pK3
      else if s = "punk" then some pUnk
      else none,
    canonicalizeRequestTarget := fun _ _ => .ok [],
    canonicalizeHeader := fun _ _ => .ok [],
    canonicalizeSignatureParams := fun _ => [] }

/-- A message carrying the given `Signature` and `Signature-Input`
header values. -/
def mkMsg (sig input : String) : message :=
  { Method := "GET", URL := "/", Header := [("Signature", [sig]), ("Signature-Input", [input])] }

/-- One signature by `k1`, expiring at 100. -/
def msgExp : message := mkMsg "sig1=:QQ==:" "sig1=pgood"

/-- One signature by `k1`, no expiry. -/
def msgNoExp : message := mkMsg "sig1=:QQ==:" "sig1=pnoexp"

/-- One signature by `k2` declaring `rsa-pss-sha512`, with a value
that is not base64. -/
def msgAlg : message := mkMsg "sig1=:!!:" "sig1=palg"

/-- A `Signature` header with no `Signature-Input` header. -/
def msgOnlySig : message :=
  { Method := "GET", URL := "/", Header := [("Signature", ["sig1=:QQ==:"])] }

/-- Two entries: the first parses and matches `k1`, the second blob
does not parse. -/
def msgBadAfterMatch : message := mkMsg "s1=:QQ==:, s2=:QQ==:" "s1=pgood, s2=BAD"

/-- Two entries: the first parses to an unregistered key id, the
second matches `k1`. -/
def msgSecondMatch : message := mkMsg "s1=:QQ==:, s2=:QQ==:" "s1=punk, s2=pgood"

/-- One signature by the rejecting key `k3`, expiring at 300. -/
def msgK3 : message := mkMsg "sig1=:QQ==:" "sig1=pk3"

/-- Two `Signature` entries against one `Signature-Input` entry. -/
def msgLenMismatch : message := mkMsg "s1=:QQ==:, s2=:QQ==:" "s1=pgood"

/-- The `Signature-Input` entries separated by a comma with no
following space, against two `Signature` entries. -/
def msgCommaNoSpace : message := mkMsg "s1=:QQ==:, s2=:QQ==:" "s1=pgood,s2=pgood"

/-- One signature by `k1` (no label, so the algorithm check passes)
whose value is not base64. -/
def msgBadB64 : message := mkMsg "sig1=:!!:" "sig1=pgood"

/-- One entry whose blob parses to an unregistered key id. -/
def msgUnk : message := mkMsg "s1=:QQ==:" "s1=punk"

/-- Two entries: the first blob does not parse, the second matches
`k1`. -/
def msgBadFirst : message := mkMsg "s1=:QQ==:, s2=:QQ==:" "s1=BAD, s2=pgood"

/-! ## Predicates for stating properties of the selection loop -/

/-- A `Signature-Input` entry is well formed for a parser when it has
an `=` separator and its blob parses. -/
def entryWF (parse : String → Option signatureParams) (p : String) : Bool :=
  (splitN2 p).length == 2 && (parse ((splitN2 p).getD 1 "")).isSome

/-- A `Signature-Input` entry is unregistered for a parser and
registry when its blob, if it parses at all, names a key id absent
from the registry. -/
def entryUnregistered (parse : String → Option signatureParams)
    (keys : List (String × verHolder)) (p : String) : Bool :=
  match parse ((splitN2 p).getD 1 "") with
  | some c => (keys.lookup c.keyID).isNone
  | none => true

/-! ## Supporting lemmas -/

theorem lor_eq_zero_iff (a b : Nat) : a ||| b = 0 ↔ a = 0 ∧ b = 0 := by
  constructor
  · intro h
    have key : ∀ k, Nat.testBit a k = false ∧ Nat.testBit b k = false := by
      intro k
      have hk := congrArg (fun n => Nat.testBit n k) h
      simp [Nat.testBit_lor] at hk
      exact hk
    refine ⟨Nat.eq_of_testBit_eq fun k => ?_, Nat.eq_of_testBit_eq fun k => ?_⟩
    · simp [(key k).1]
    · simp [(key k).2]
  · rintro ⟨rfl, rfl⟩
    rfl

theorem foldl_or_eq_zero (l : List Nat) (acc : Nat) :
    l.foldl (fun a v => a ||| v) acc = 0 ↔ acc = 0 ∧ ∀ v ∈ l, v = 0 := by
  induction l generalizing acc with
  | nil => simp
  | cons x xs ih =>
    simp only [List.foldl_cons, ih, lor_eq_zero_iff, List.mem_cons]
    constructor
    · rintro ⟨⟨ha, hx⟩, hxs⟩
      exact ⟨ha, fun v hv => hv.elim (fun h => h ▸ hx) (hxs v)⟩
    · rintro ⟨ha, hall⟩
      exact ⟨⟨ha, hall x (Or.inl rfl)⟩, fun v hv => hall v (Or.inr hv)⟩

theorem zipWith_xor_eq_zero (x : List Nat) :
    ∀ y : List Nat, x.length = y.length →
      ((∀ v ∈ List.zipWith (fun a b => a ^^^ b) x y, v = 0) ↔ x = y) := by
  induction x with
  | nil =>
    intro y hlen
    cases y with
    | nil => simp
    | cons b bs => simp at hlen
  | cons a as ih =>
    intro y hlen
    cases y with
    | nil => simp at hlen
    | cons b bs =>
      simp only [List.zipWith_cons_cons, List.mem_cons, List.cons.injEq]
      simp only [List.length_cons, Nat.succ_inj] at hlen
      constructor
      · intro hall
        refine ⟨Nat.xor_eq_zero.mp (hall _ (Or.inl rfl)), ?_⟩
        exact (ih bs hlen).mp fun v hv => hall v (Or.inr hv)
      · rintro ⟨rfl, rfl⟩
        intro v hv
        rcases hv with h | h
        · simp [h]
        · exact ((ih as rfl).mpr rfl) v h

theorem constantTimeCompare_eq_true (x y : List Nat) :
    constantTimeCompare x y = true ↔ x = y := by
  unfold constantTimeCompare
  by_cases hlen : x.length = y.length
  · rw [if_pos hlen]
    simp only [beq_iff_eq, foldl_or_eq_zero, true_and]
    exact zipWith_xor_eq_zero x y hlen
  · rw [if_neg hlen]
    simp only [Bool.false_eq_true, false_iff]
    intro hxy
    exact hlen (hxy ▸ rfl)

theorem hmacEqual_eq_true (mac1 mac2 : List Nat) :
    hmacEqual mac1 mac2 = true ↔ mac1 = mac2 :=
  constantTimeCompare_eq_true mac1 mac2

theorem selectSig_error_cases (parse : String → Option signatureParams)
    (keys : List (String × verHolder)) :
    ∀ (l : List String) (e : SigError), selectSig parse keys l = .error e →
      e = SigError.malformedSignature ∨ e = SigError.unknownKey := by
  intro l
  induction l with
  | nil =>
    intro e h
    rw [selectSig] at h
    injection h with h
    exact Or.inr h.symm
  | cons p rest ih =>
    intro e h
    rw [selectSig] at h
    split at h
    · injection h with h
      exact Or.inl h.symm
    · split at h
      · injection h with h
        exact Or.inl h.symm
      · split at h
        · simp at h
        · exact ih e h

theorem findSignatureVal_error (sigID : String) :
    ∀ (l : List String) (e : SigError), findSignatureVal sigID l = .error e →
      e = SigError.malformedSignature := by
  intro l
  induction l with
  | nil =>
    intro e h
    rw [findSignatureVal] at h
    injection h with h
    exact h.symm
  | cons s rest ih =>
    intro e h
    rw [findSignatureVal] at h
    split at h
    · injection h with h
      exact h.symm
    · split at h
      · split at h
        · injection h with h
          exact h.symm
        · simp at h
      · exact ih e h

theorem Verify_eq_of_headers (v : verifier) (env : Env) (msg : message) (wallClock : Int)
    (hs : headerGet msg.Header "Signature" ≠ "")
    (hp : headerGet msg.Header "Signature-Input" ≠ "")
    (hlen : (splitParts (headerGet msg.Header "Signature")).length =
      (splitParts (headerGet msg.Header "Signature-Input")).length) :
    Verify v env msg wallClock =
      match selectSig env.parseSignatureInput v.keys
          (splitParts (headerGet msg.Header "Signature-Input")) with
      | .error e => some e
      | .ok (sigID, params) =>
        verifySelected v env msg wallClock (splitParts (headerGet msg.Header "Signature"))
          sigID params := by
  simp only [Verify]
  rw [if_neg hs, if_neg hp, if_neg (not_not_intro hlen)]

theorem verifySelected_ne_notSigned (v : verifier) (env : Env) (msg : message)
    (wallClock : Int) (sigParts : List String) (sigID : String) (params : signatureParams) :
    verifySelected v env msg wallClock sigParts sigID params ≠ some SigError.notSigned := by
  unfold verifySelected
  split
  · rename_i e hfind
    have := findSignatureVal_error sigID sigParts e hfind
    subst this
    simp
  · split
    · simp
    · split
      · simp
      · split
        · simp
        · split
          · simp
          · split
            · simp
            · split
              · split <;> simp
              · simp

theorem verifySelected_expired_inv (v : verifier) (env : Env) (msg : message)
    (wallClock : Int) (sigParts : List String) (sigID : String) (params : signatureParams) :
    verifySelected v env msg wallClock sigParts sigID params = some SigError.signatureExpired →
    ∃ signature ver sig b,
      findSignatureVal sigID sigParts = .ok signature ∧
      v.keys.lookup params.keyID = some ver ∧
      base64Decode signature = some sig ∧
      canonicalizeItems env msg params.items = .ok b ∧
      ver.check (b ++ env.canonicalizeSignatureParams params) sig = none := by
  intro h
  unfold verifySelected at h
  split at h
  · rename_i e hfind
    have := findSignatureVal_error sigID sigParts e hfind
    subst this
    simp at h
  · rename_i signature hfind
    split at h
    · simp at h
    · rename_i ver hver
      split at h
      · simp at h
      · split at h
        · simp at h
        · rename_i sig hsig
          split at h
          · simp at h
          · rename_i b hb
            split at h
            · simp at h
            · rename_i hcheck
              exact ⟨signature, ver, sig, b, hfind, hver, hsig, hb, hcheck⟩

theorem selectSig_cons_unregistered (parse : String → Option signatureParams)
    (keys : List (String × verHolder)) (p : String) (rest : List String)
    (hwf : entryWF parse p = true) (hunreg : entryUnregistered parse keys p = true) :
    selectSig parse keys (p :: rest) = selectSig parse keys rest := by
  unfold entryWF at hwf
  rw [Bool.and_eq_true] at hwf
  obtain ⟨hlen, hsome⟩ := hwf
  have hlen' : (splitN2 p).length = 2 := by simpa using hlen
  obtain ⟨c, hc⟩ := Option.isSome_iff_exists.mp hsome
  unfold entryUnregistered at hunreg
  rw [hc] at hunreg
  simp only [Option.isNone_iff_eq_none] at hunreg
  rw [selectSig, if_neg (not_not_intro hlen')]
  simp only [hc, hunreg, Option.isSome_none, Bool.false_eq_true, if_false]

theorem selectSig_append_unregistered (parse : String → Option signatureParams)
    (keys : List (String × verHolder)) :
    ∀ (pre rest : List String), (∀ p ∈ pre, entryWF parse p = true) →
      (∀ p ∈ pre, entryUnregistered parse keys p = true) →
      selectSig parse keys (pre ++ rest) = selectSig parse keys rest := by
  intro pre
  induction pre with
  | nil => simp
  | cons p pre ih =>
    intro rest hwf hunreg
    rw [List.cons_append,
      selectSig_cons_unregistered parse keys p (pre ++ rest)
        (hwf p (by simp)) (hunreg p (by simp))]
    exact ih rest (fun q hq => hwf q (by simp [hq])) (fun q hq => hunreg q (by simp [hq]))

theorem selectSig_match_head (parse : String → Option signatureParams)
    (keys : List (String × verHolder)) (q : String) (post : List String)
    (c : signatureParams)
    (hlen : (splitN2 q).length = 2)
    (hc : parse ((splitN2 q).getD 1 "") = some c)
    (hreg : (keys.lookup c.keyID).isSome = true) :
    selectSig parse keys (q :: post) = .ok ((splitN2 q).getD 0 "", c) := by
  rw [selectSig, if_neg (not_not_intro hlen)]
  simp only [hc]
  rw [if_pos hreg]

theorem selectSig_bad_head (parse : String → Option signatureParams)
    (keys : List (String × verHolder)) (q : String) (post : List String)
    (hbad : entryWF parse q = false) :
    selectSig parse keys (q :: post) = .error .malformedSignature := by
  unfold entryWF at hbad
  by_cases hlen : (splitN2 q).length = 2
  · rw [selectSig, if_neg (not_not_intro hlen)]
    cases hp : parse ((splitN2 q).getD 1 "") with
    | none => simp only [hp]
    | some c =>
      rw [hp] at hbad
      simp [hlen] at hbad
  · rw [selectSig, if_pos hlen]

theorem findSignatureVal_no_match (sigID : String) :
    ∀ l : List String, (∀ s ∈ l, (splitN2 s).getD 0 "" ≠ sigID) →
      findSignatureVal sigID l = .error .malformedSignature := by
  intro l
  induction l with
  | nil => intro _; rfl
  | cons s rest ih =>
    intro hno
    rw [findSignatureVal]
    by_cases hlen2 : (splitN2 s).length ≠ 2
    · rw [if_pos hlen2]
    · rw [if_neg hlen2, if_neg (hno s (by simp))]
      exact ih fun p hp => hno p (by simp [hp])

theorem findSignatureVal_first_id (sigID : String) :
    ∀ (pre : List String) (s : String) (post : List String),
      (∀ p ∈ pre, (splitN2 p).length = 2 ∧ (splitN2 p).getD 0 "" ≠ sigID) →
      (splitN2 s).length = 2 → (splitN2 s).getD 0 "" = sigID →
      trimColons ((splitN2 s).getD 1 "") ≠ "" →
      findSignatureVal sigID (pre ++ s :: post) =
        .ok (trimColons ((splitN2 s).getD 1 "")) := by
  intro pre
  induction pre with
  | nil =>
    intro s post _ hlen2 hid hne
    rw [List.nil_append, findSignatureVal, if_neg (not_not_intro hlen2), if_pos hid,
      if_neg hne]
  | cons p pre ih =>
    intro s post hpre hlen2 hid hne
    obtain ⟨hplen, hpid⟩ := hpre p (by simp)
    rw [List.cons_append, findSignatureVal, if_neg (not_not_intro hplen), if_neg hpid]
    exact ih s post (fun q hq => hpre q (by simp [hq])) hlen2 hid hne

/-! ## Claim theorems -/

/-- C1: the expiry comparison of verify.go line 142 is inverted
relative to the claim.  On a run in which every check before the
expiry check succeeds and the parsed `expires` is 100: with the wall
clock at 200 (`expires` in the past) `Verify` succeeds instead of
returning `signatureExpired`, and with the wall clock at 50
(`expires` in the future) it returns `signatureExpired`; with
`expires` unset it succeeds. -/
theorem verify_expiry_direction :
    Verify vC envC msgExp 200 = none ∧
    Verify vC envC msgExp 50 = some SigError.signatureExpired ∧
    Verify vC envC msgNoExp 200 = none :=
  ⟨by decide, by decide, by decide⟩

/-- C4: the expiry check of verify.go line 142 calls `time.Now()`
directly and never reads the verifier's `nowFunc` field, so `Verify`
is independent of `nowFunc` for every input, while the wall-clock
value read at check time does change the outcome. -/
theorem verify_ignores_nowFunc :
    (∀ (ks : List (String × verHolder)) (t1 t2 : Int) (env : Env) (msg : message)
      (wallClock : Int),
      Verify ⟨ks, t1⟩ env msg wallClock = Verify ⟨ks, t2⟩ env msg wallClock) ∧
    Verify vC envC msgExp 50 ≠ Verify vC envC msgExp 200 :=
  ⟨fun _ _ _ _ _ _ => rfl, by decide⟩

/-- C10 counterexample: a comma followed by two spaces contains the
exact delimiter `", "`, so `splitParts` does split there — the two
entries are separated (with the extra space left on the second one),
not kept as one entry as the claim states. -/
theorem split_extra_space_cex :
    splitParts "a=1,  b=2" = ["a=1", " b=2"] ∧ (splitParts "a=1,  b=2").length ≠ 1 :=
  ⟨by decide, by decide⟩

/-- C10 (amended): both header values are split on the exact
two-character delimiter `", "`: a comma with no following space does
not split (the header has fewer entries than intended, surfacing here
as a list-length mismatch), while a comma with extra spaces splits at
the comma and first space, leaving the extra whitespace on the next
entry. -/
theorem verify_split_exact_delimiter :
    splitParts "a=1,b=2" = ["a=1,b=2"] ∧
    splitParts "a=1,  b=2" = ["a=1", " b=2"] ∧
    Verify vC envC msgCommaNoSpace 0 = some SigError.malformedSignature :=
  ⟨by decide, by decide, by decide⟩

/-- C2 counterexample: with the `Signature` header present and the
`Signature-Input` header absent (exactly one of the two absent),
verify.go line 44 returns `notSigned`, not `malformedSignature` as
the claim states. -/
theorem verify_one_header_absent_cex :
    Verify vC envC msgOnlySig 0 = some SigError.notSigned ∧
    Verify vC envC msgOnlySig 0 ≠ some SigError.malformedSignature :=
  ⟨by decide, by decide⟩

/-- C2 (amended): `Verify` returns `notSigned` exactly when the
`Signature` header or the `Signature-Input` header is absent; when
both are present and the comma-split lists differ in length it
returns `malformedSignature`. -/
theorem verify_not_signed_iff (v : verifier) (env : Env) (msg : message) (wallClock : Int) :
    (Verify v env msg wallClock = some SigError.notSigned ↔
      headerGet msg.Header "Signature" = "" ∨ headerGet msg.Header "Signature-Input" = "") ∧
    (headerGet msg.Header "Signature" ≠ "" → headerGet msg.Header "Signature-Input" ≠ "" →
      (splitParts (headerGet msg.Header "Signature")).length ≠
        (splitParts (headerGet msg.Header "Signature-Input")).length →
      Verify v env msg wallClock = some SigError.malformedSignature) := by
  constructor
  · constructor
    · intro h
      by_contra hc
      push_neg at hc
      obtain ⟨hs, hp⟩ := hc
      simp only [Verify] at h
      rw [if_neg hs, if_neg hp] at h
      split at h
      · simp at h
      · split at h
        · rename_i e hsel
          rcases selectSig_error_cases _ _ _ e hsel with rfl | rfl <;> simp at h
        · exact absurd h (verifySelected_ne_notSigned _ _ _ _ _ _ _)
    · intro h
      rcases h with h | h
      · simp [Verify, h]
      · simp only [Verify]
        by_cases hs : headerGet msg.Header "Signature" = ""
        · rw [if_pos hs]
        · rw [if_neg hs, if_pos h]
  · intro hs hp hlen
    simp only [Verify]
    rw [if_neg hs, if_neg hp, if_pos hlen]

/-- C2 witness: the amended claim at concrete inputs — a message with
only the `Signature` header yields `notSigned`, and a
two-against-one list-length mismatch yields `malformedSignature`. -/
theorem verify_not_signed_iff_witness :
    Verify vC envC msgOnlySig 0 = some SigError.notSigned ∧
    Verify vC envC msgLenMismatch 0 = some SigError.malformedSignature :=
  ⟨(verify_not_signed_iff vC envC msgOnlySig 0).1.mpr (Or.inr (by decide)),
   (verify_not_signed_iff vC envC msgLenMismatch 0).2 (by decide) (by decide) (by decide)⟩

/-- C3: when every `Signature-Input` entry parses, `Verify` returns
`unknownKey` when no entry's key id is registered, and otherwise the
verified entry is the first one, in header order, whose key id is in
the registry: the call continues as `verifySelected` on that entry's
id and parsed parameters, for every choice of later entries. -/
theorem verify_first_match (v : verifier) (env : Env) (msg : message) (wallClock : Int)
    (hs : headerGet msg.Header "Signature" ≠ "")
    (hp : headerGet msg.Header "Signature-Input" ≠ "")
    (hlen : (splitParts (headerGet msg.Header "Signature")).length =
      (splitParts (headerGet msg.Header "Signature-Input")).length)
    (hwf : ∀ p ∈ splitParts (headerGet msg.Header "Signature-Input"),
      entryWF env.parseSignatureInput p = true) :
    ((∀ p ∈ splitParts (headerGet msg.Header "Signature-Input"),
        entryUnregistered env.parseSignatureInput v.keys p = true) →
      Verify v env msg wallClock = some SigError.unknownKey) ∧
    (∀ (pre : List String) (q : String) (post : List String) (c : signatureParams),
      splitParts (headerGet msg.Header "Signature-Input") = pre ++ q :: post →
      (∀ p ∈ pre, entryUnregistered env.parseSignatureInput v.keys p = true) →
      env.parseSignatureInput ((splitN2 q).getD 1 "") = some c →
      (v.keys.lookup c.keyID).isSome = true →
      Verify v env msg wallClock =
        verifySelected v env msg wallClock (splitParts (headerGet msg.Header "Signature"))
          ((splitN2 q).getD 0 "") c) := by
  constructor
  · intro hunreg
    rw [Verify_eq_of_headers v env msg wallClock hs hp hlen]
    have hsel : selectSig env.parseSignatureInput v.keys
        (splitParts (headerGet msg.Header "Signature-Input")) = .error .unknownKey := by
      have happ := selectSig_append_unregistered env.parseSignatureInput v.keys
        (splitParts (headerGet msg.Header "Signature-Input")) [] hwf hunreg
      rw [List.append_nil] at happ
      rw [happ, selectSig]
    rw [hsel]
  · intro pre q post c hsplit hunregpre hc hreg
    have hqmem : q ∈ splitParts (headerGet msg.Header "Signature-Input") := by
      rw [hsplit]
      exact List.mem_append_right pre (by simp)
    have hqwf := hwf q hqmem
    unfold entryWF at hqwf
    rw [Bool.and_eq_true] at hqwf
    have hqlen : (splitN2 q).length = 2 := by simpa using hqwf.1
    rw [Verify_eq_of_headers v env msg wallClock hs hp hlen, hsplit,
      selectSig_append_unregistered env.parseSignatureInput v.keys pre (q :: post)
        (fun p hp' => hwf p (by rw [hsplit]; exact List.mem_append_left _ hp')) hunregpre,
      selectSig_match_head env.parseSignatureInput v.keys q post c hqlen hc hreg]

/-- C3 witness: with entries `s1=punk, s2=pgood` (first unregistered,
second registered as `k1`), `Verify` proceeds on the second entry,
and with the single unregistered entry `s1=punk` it returns
`unknownKey`. -/
theorem verify_first_match_witness :
    Verify vC envC msgSecondMatch 200 =
      verifySelected vC envC msgSecondMatch 200 ["s1=:QQ==:", "s2=:QQ==:"] "s2" pGood ∧
    Verify vC envC msgUnk 200 = some SigError.unknownKey :=
  ⟨(verify_first_match vC envC msgSecondMatch 200 (by decide) (by decide) (by decide)
      (by decide)).2 ["s1=punk"] "s2=pgood" [] pGood rfl (by decide) rfl rfl,
   (verify_first_match vC envC msgUnk 200 (by decide) (by decide) (by decide)
      (by decide)).1 (by decide)⟩

/-- C5 counterexample: the selection loop of verify.go lines 56-78
breaks at the first registered entry, so with entries
`s1=pgood, s2=BAD` — the second blob unparsable but placed after the
matched first entry — `Verify` succeeds instead of returning
`malformedSignature` as the claim states. -/
theorem verify_skips_blob_after_match_cex :
    envC.parseSignatureInput "BAD" = none ∧
    Verify vC envC msgBadAfterMatch 200 = none ∧
    Verify vC envC msgBadAfterMatch 200 ≠ some SigError.malformedSignature :=
  ⟨by decide, by decide, by decide⟩

/-- C5 (amended): parameter blobs are parsed in header order only up
to the first entry whose key id is registered: an entry that fails to
parse before any registered match makes `Verify` return
`malformedSignature`, and the selection loop never examines entries
placed after the first registered match. -/
theorem verify_parse_until_first_match (v : verifier) (env : Env) (msg : message)
    (wallClock : Int)
    (hs : headerGet msg.Header "Signature" ≠ "")
    (hp : headerGet msg.Header "Signature-Input" ≠ "")
    (hlen : (splitParts (headerGet msg.Header "Signature")).length =
      (splitParts (headerGet msg.Header "Signature-Input")).length) :
    (∀ (pre : List String) (q : String) (post : List String),
      splitParts (headerGet msg.Header "Signature-Input") = pre ++ q :: post →
      (∀ p ∈ pre, entryWF env.parseSignatureInput p = true ∧
        entryUnregistered env.parseSignatureInput v.keys p = true) →
      entryWF env.parseSignatureInput q = false →
      Verify v env msg wallClock = some SigError.malformedSignature) ∧
    (∀ (parse : String → Option signatureParams) (keys : List (String × verHolder))
      (pre : List String) (q : String) (post : List String) (c : signatureParams),
      (∀ p ∈ pre, entryWF parse p = true ∧ entryUnregistered parse keys p = true) →
      (splitN2 q).length = 2 →
      parse ((splitN2 q).getD 1 "") = some c →
      (keys.lookup c.keyID).isSome = true →
      selectSig parse keys (pre ++ q :: post) = selectSig parse keys (pre ++ [q])) := by
  constructor
  · intro pre q post hsplit hpre hbad
    rw [Verify_eq_of_headers v env msg wallClock hs hp hlen, hsplit,
      selectSig_append_unregistered env.parseSignatureInput v.keys pre (q :: post)
        (fun p hp' => (hpre p hp').1) (fun p hp' => (hpre p hp').2),
      selectSig_bad_head env.parseSignatureInput v.keys q post hbad]
  · intro parse keys pre q post c hpre hqlen hc hreg
    rw [selectSig_append_unregistered parse keys pre (q :: post)
        (fun p hp' => (hpre p hp').1) (fun p hp' => (hpre p hp').2),
      selectSig_append_unregistered parse keys pre [q]
        (fun p hp' => (hpre p hp').1) (fun p hp' => (hpre p hp').2),
      selectSig_match_head parse keys q post c hqlen hc hreg,
      selectSig_match_head parse keys q [] c hqlen hc hreg]

/-- C5 witness: a blob that fails to parse placed before any match
(`s1=BAD, s2=pgood`) yields `malformedSignature`, and the selection
outcome on `s1=pgood, s2=BAD` equals the outcome on `s1=pgood` alone
(the entry after the match is never examined). -/
theorem verify_parse_until_first_match_witness :
    Verify vC envC msgBadFirst 200 = some SigError.malformedSignature ∧
    selectSig envC.parseSignatureInput vC.keys ["s1=pgood", "s2=BAD"] =
      selectSig envC.parseSignatureInput vC.keys ["s1=pgood"] :=
  ⟨(verify_parse_until_first_match vC envC msgBadFirst 200 (by decide) (by decide)
      (by decide)).1 [] "s1=BAD" ["s2=pgood"] rfl (by decide) (by decide),
   (verify_parse_until_first_match vC envC msgBadFirst 200 (by decide) (by decide)
      (by decide)).2 envC.parseSignatureInput vC.keys [] "s1=pgood" ["s2=BAD"] pGood
      (by decide) rfl rfl rfl⟩

/-- C6: on a call that reaches the algorithm check (headers present,
lists of equal length, an entry selected, a signature value extracted,
the registry row found), `Verify` returns `algMismatch` exactly when
the row's expected label and the parsed `alg` are both non-empty and
differ; the equivalence holds for every environment, signature value
and checker, so the outcome at the check is independent of base64
decoding, canonicalization and all cryptographic work, and when
either label is empty the check passes. -/
theorem verify_alg_mismatch_iff (v : verifier) (env : Env) (msg : message) (wallClock : Int)
    (sigID : String) (params : signatureParams) (signature : String) (ver : verHolder)
    (hs : headerGet msg.Header "Signature" ≠ "")
    (hp : headerGet msg.Header "Signature-Input" ≠ "")
    (hlen : (splitParts (headerGet msg.Header "Signature")).length =
      (splitParts (headerGet msg.Header "Signature-Input")).length)
    (hsel : selectSig env.parseSignatureInput v.keys
      (splitParts (headerGet msg.Header "Signature-Input")) = .ok (sigID, params))
    (hfind : findSignatureVal sigID (splitParts (headerGet msg.Header "Signature")) =
      .ok signature)
    (hver : v.keys.lookup params.keyID = some ver) :
    Verify v env msg wallClock = some SigError.algMismatch ↔
      (ver.alg ≠ "" ∧ params.alg ≠ "" ∧ ver.alg ≠ params.alg) := by
  rw [Verify_eq_of_headers v env msg wallClock hs hp hlen, hsel]
  show verifySelected v env msg wallClock _ sigID params = some SigError.algMismatch ↔ _
  unfold verifySelected
  simp only [hfind, hver]
  by_cases hcond : ver.alg ≠ "" ∧ params.alg ≠ "" ∧ ver.alg ≠ params.alg
  · rw [if_pos hcond]
    simp [hcond]
  · rw [if_neg hcond]
    constructor
    · intro h
      exfalso
      split at h
      · simp at h
      · split at h
        · simp at h
        · split at h
          · simp at h
          · split at h
            · split at h
              · simp at h
              · simp at h
            · simp at h
    · intro h
      exact absurd h hcond

/-- C6 witness: a registry row labelled `hmac-sha256` against a
parsed `alg` of `rsa-pss-sha512` yields `algMismatch`, even though
the signature value of the message is not even base64. -/
theorem verify_alg_mismatch_iff_witness :
    Verify vC envC msgAlg 0 = some SigError.algMismatch :=
  (verify_alg_mismatch_iff vC envC msgAlg 0 "sig1" pAlg "!!" hHmacLabel (by decide)
    (by decide) (by decide) rfl rfl rfl).mpr (by decide)

/-- C7 counterexample: the algorithm check of verify.go line 99
precedes the base64 decoding of line 104, so on a message whose
extracted value `!!` cannot be base64-decoded but whose parsed `alg`
also mismatches the registry label, `Verify` returns `algMismatch`,
not `malformedSignature` as the claim states for every
non-decodable value. -/
theorem verify_decode_failure_cex :
    base64Decode "!!" = none ∧
    Verify vC envC msgAlg 0 = some SigError.algMismatch ∧
    Verify vC envC msgAlg 0 ≠ some SigError.malformedSignature :=
  ⟨by decide, by decide, by decide⟩

/-- C7 (amended): for the selected id, the raw value is extracted
from the first matching `Signature` entry by trimming the colon
delimiters; `Verify` returns `malformedSignature` when no entry's id
equals the selected id, and — provided the algorithm check passes
(that check precedes decoding) — when the extracted value cannot be
base64-decoded. -/
theorem verify_signature_extraction (v : verifier) (env : Env) (msg : message)
    (wallClock : Int) (sigID : String) (params : signatureParams)
    (hs : headerGet msg.Header "Signature" ≠ "")
    (hp : headerGet msg.Header "Signature-Input" ≠ "")
    (hlen : (splitParts (headerGet msg.Header "Signature")).length =
      (splitParts (headerGet msg.Header "Signature-Input")).length)
    (hsel : selectSig env.parseSignatureInput v.keys
      (splitParts (headerGet msg.Header "Signature-Input")) = .ok (sigID, params)) :
    ((∀ s ∈ splitParts (headerGet msg.Header "Signature"),
        (splitN2 s).getD 0 "" ≠ sigID) →
      Verify v env msg wallClock = some SigError.malformedSignature) ∧
    (∀ (signature : String) (ver : verHolder),
      findSignatureVal sigID (splitParts (headerGet msg.Header "Signature")) =
        .ok signature →
      v.keys.lookup params.keyID = some ver →
      ¬(ver.alg ≠ "" ∧ params.alg ≠ "" ∧ ver.alg ≠ params.alg) →
      base64Decode signature = none →
      Verify v env msg wallClock = some SigError.malformedSignature) ∧
    (∀ (pre : List String) (s : String) (post : List String),
      splitParts (headerGet msg.Header "Signature") = pre ++ s :: post →
      (∀ p ∈ pre, (splitN2 p).length = 2 ∧ (splitN2 p).getD 0 "" ≠ sigID) →
      (splitN2 s).length = 2 → (splitN2 s).getD 0 "" = sigID →
      trimColons ((splitN2 s).getD 1 "") ≠ "" →
      findSignatureVal sigID (splitParts (headerGet msg.Header "Signature")) =
        .ok (trimColons ((splitN2 s).getD 1 ""))) := by
  refine ⟨?_, ?_, ?_⟩
  · intro hno
    rw [Verify_eq_of_headers v env msg wallClock hs hp hlen, hsel]
    show verifySelected v env msg wallClock _ sigID params = some SigError.malformedSignature
    unfold verifySelected
    rw [findSignatureVal_no_match sigID _ hno]
  · intro signature ver hfind hver halg hdec
    rw [Verify_eq_of_headers v env msg wallClock hs hp hlen, hsel]
    show verifySelected v env msg wallClock _ sigID params = some SigError.malformedSignature
    unfold verifySelected
    simp only [hfind, hver, if_neg halg, hdec]
  · intro pre s post hsplit hpre hlen2 hid hne
    rw [hsplit]
    exact findSignatureVal_first_id sigID pre s post hpre hlen2 hid hne

/-- C7 witness: with a matching entry `sig1=:QQ==:` the extracted
value is the colon-trimmed `QQ==`, and with a non-decodable value
`!!` under a passing algorithm check `Verify` returns
`malformedSignature`. -/
theorem verify_signature_extraction_witness :
    findSignatureVal "sig1" (splitParts (headerGet msgExp.Header "Signature")) =
      .ok "QQ==" ∧
    Verify vC envC msgBadB64 0 = some SigError.malformedSignature :=
  ⟨(verify_signature_extraction vC envC msgExp 0 "sig1" pGood (by decide) (by decide)
      (by decide) rfl).2.2 [] "sig1=:QQ==:" [] rfl (by decide) (by decide) (by decide)
      (by decide),
   (verify_signature_extraction vC envC msgBadB64 0 "sig1" pGood (by decide) (by decide)
      (by decide) rfl).2.1 "!!" hAccept rfl rfl (by decide) (by decide)⟩

/-- C8: the orchestrator runs the cryptographic check strictly before
the expiry check, with no branching back: whenever the selected
instance's finalize call fails, `Verify` returns `invalidSignature`
(regardless of the expiry data), and `Verify` returns
`signatureExpired` only on runs whose finalize call succeeded. -/
theorem verify_crypto_precedes_expiry (v : verifier) (env : Env) (msg : message)
    (wallClock : Int) :
    (∀ (sigID : String) (params : signatureParams) (signature : String) (ver : verHolder)
      (sig b : List Nat) (err : SigError),
      headerGet msg.Header "Signature" ≠ "" →
      headerGet msg.Header "Signature-Input" ≠ "" →
      (splitParts (headerGet msg.Header "Signature")).length =
        (splitParts (headerGet msg.Header "Signature-Input")).length →
      selectSig env.parseSignatureInput v.keys
        (splitParts (headerGet msg.Header "Signature-Input")) = .ok (sigID, params) →
      findSignatureVal sigID (splitParts (headerGet msg.Header "Signature")) =
        .ok signature →
      v.keys.lookup params.keyID = some ver →
      ¬(ver.alg ≠ "" ∧ params.alg ≠ "" ∧ ver.alg ≠ params.alg) →
      base64Decode signature = some sig →
      canonicalizeItems env msg params.items = .ok b →
      ver.check (b ++ env.canonicalizeSignatureParams params) sig = some err →
      Verify v env msg wallClock = some SigError.invalidSignature) ∧
    (Verify v env msg wallClock = some SigError.signatureExpired →
      ∃ (sigID : String) (params : signatureParams) (signature : String)
        (ver : verHolder) (sig b : List Nat),
        selectSig env.parseSignatureInput v.keys
          (splitParts (headerGet msg.Header "Signature-Input")) = .ok (sigID, params) ∧
        findSignatureVal sigID (splitParts (headerGet msg.Header "Signature")) =
          .ok signature ∧
        v.keys.lookup params.keyID = some ver ∧
        base64Decode signature = some sig ∧
        canonicalizeItems env msg params.items = .ok b ∧
        ver.check (b ++ env.canonicalizeSignatureParams params) sig = none) := by
  constructor
  · intro sigID params signature ver sig b err hs hp hlen hsel hfind hver halg hdec hcanon
      hcheck
    rw [Verify_eq_of_headers v env msg wallClock hs hp hlen, hsel]
    show verifySelected v env msg wallClock _ sigID params = some SigError.invalidSignature
    unfold verifySelected
    simp only [hfind, hver, if_neg halg, hdec, hcanon, hcheck]
  · intro h
    by_cases hs : headerGet msg.Header "Signature" = ""
    · simp [Verify, hs] at h
    · by_cases hp : headerGet msg.Header "Signature-Input" = ""
      · simp [Verify, hs, hp] at h
      · by_cases hlen : (splitParts (headerGet msg.Header "Signature")).length =
          (splitParts (headerGet msg.Header "Signature-Input")).length
        · rw [Verify_eq_of_headers v env msg wallClock hs hp hlen] at h
          split at h
          · rename_i e hsel
            rcases selectSig_error_cases _ _ _ e hsel with rfl | rfl <;> simp at h
          · rename_i sigID params hsel
            obtain ⟨signature, ver, sig, b, hfind, hver, hdec, hcanon, hcheck⟩ :=
              verifySelected_expired_inv v env msg wallClock _ sigID params h
            exact ⟨sigID, params, signature, ver, sig, b, hsel, hfind, hver,
              hdec, hcanon, hcheck⟩
        · simp only [Verify] at h
          rw [if_neg hs, if_neg hp, if_pos hlen] at h
          simp at h

/-- C8 witness: a signature by the rejecting key `k3` whose parsed
`expires` (300) is also flagged by the expiry comparison at wall
clock 200 yields `invalidSignature`, not `signatureExpired`. -/
theorem verify_crypto_precedes_expiry_witness :
    Verify vC envC msgK3 200 = some SigError.invalidSignature :=
  (verify_crypto_precedes_expiry vC envC msgK3 200).1 "sig1" pK3 "QQ==" hReject [65] []
    SigError.invalidSignature (by decide) (by decide) (by decide) rfl rfl rfl
    (by decide) rfl rfl rfl

/-- C9: for every secret and every sequence of writes absorbed by the
instance produced by `verifyHmacSha256`, finalization succeeds exactly
when the supplied signature bytes equal the HMAC-SHA256 of the
absorbed bytes under that secret, and the only other possible result
is the cryptographic-mismatch failure `invalidSignature`. -/
theorem verifyHmacSha256_finalize (secret : List Nat) (writes : List (List Nat))
    (signature : List Nat) :
    ((verifyHmacSha256 secret).check writes.flatten signature = none ↔
      signature = hmacSha256 secret writes.flatten) ∧
    ((verifyHmacSha256 secret).check writes.flatten signature = none ∨
      (verifyHmacSha256 secret).check writes.flatten signature =
        some SigError.invalidSignature) := by
  unfold verifyHmacSha256
  simp only []
  by_cases h : hmacEqual signature (hmacSha256 secret writes.flatten) = true
  · rw [if_pos h]
    exact ⟨⟨fun _ => (hmacEqual_eq_true _ _).mp h, fun _ => rfl⟩, Or.inl rfl⟩
  · rw [if_neg h]
    refine ⟨⟨fun hc => absurd hc (by simp), fun he => ?_⟩, Or.inr rfl⟩
    exact absurd ((hmacEqual_eq_true _ _).mpr he) h

end Httpsig
